import Mathlib

/-!
Verification development for the kv-store-redis server.

The Rust sources are shallowly embedded here. Byte buffers (`Vec<u8>`, `&[u8]`)
are modelled as `List Nat`, one entry per byte, and Rust `String`s are modelled
by their byte sequences, also `List Nat` (Rust strings are always valid UTF-8,
so the `str::from_utf8(..).unwrap()` steps performed by the parser never fail
on data produced by the serializer and are modelled as the identity).
Fallible Rust code (`Result`, and panics such as `unwrap`/`expect`/slice
out-of-bounds) is modelled with `Option`, `none` standing for both an `Err`
and a panic.  `Instant::now()` is modelled by an explicit `now : Nat`
parameter counting milliseconds.
-/

/-- Byte sequence of a Lean string literal; used to write the ASCII constants
that appear in the Rust sources. -/
def bytesOfString (s : String) : List Nat :=
  s.data.map Char.toNat

/-- CR byte. -/
def CR : Nat := 13

/-- LF byte. -/
def LF : Nat := 10

/-- True when the byte sequence contains no CR (0x0D) byte. -/
def noCR (s : List Nat) : Bool :=
  s.all (fun b => b ≠ CR)

/-- Decimal rendering of a natural number in ASCII bytes, as produced by
Rust's `format!("{}", n)` for unsigned integers. -/
def natToDec (n : Nat) : List Nat :=
  if n = 0 then [48] else ((Nat.digits 10 n).map (fun d => d + 48)).reverse

/-- `str::parse::<usize>` / `str::parse::<u64>` on the bytes of a string
(64-bit target, so both have range `0 .. 2^64 - 1`): an optional leading `+`,
then one or more ASCII digits, value within range; anything else is an error.
In particular `"-1"` fails.  The accumulated value in `Nat` is monotone, so
checking the final value against the range is equivalent to Rust's
overflow check during accumulation. -/
def rustParseU64 (bytes : List Nat) : Option Nat :=
  let digs := match bytes with
    | 43 :: rest => rest
    | l => l
  if digs ≠ [] ∧ digs.all (fun b => 48 ≤ b ∧ b ≤ 57) then
    let v := digs.foldl (fun acc d => acc * 10 + (d - 48)) 0
    if v < 2 ^ 64 then some v else none
  else none

/-- Value of one ASCII hex digit, as accepted by `u8::from_str_radix(_, 16)`. -/
def hexVal (b : Nat) : Option Nat :=
  if 48 ≤ b ∧ b ≤ 57 then some (b - 48)
  else if 97 ≤ b ∧ b ≤ 102 then some (b - 87)
  else if 65 ≤ b ∧ b ≤ 70 then some (b - 55)
  else none

/-- The hex decoding loop of `Type::serialize` for `RDBSyncString`
(src/resptype.rs 53-62): two-character chunks parsed with
`u8::from_str_radix(&rdb[i..i+2], 16)`.  A chunk may carry a leading `+`
(accepted by `from_str_radix`); an odd-length string makes the final
`&rdb[i..i+2]` slice panic, and a non-hex chunk is an error --- both
modelled as `none`. -/
def hexDecode : List Nat → Option (List Nat)
  | [] => some []
  | [_] => none
  | 43 :: b :: rest => do
      let v ← hexVal b
      let tail ← hexDecode rest
      pure (v :: tail)
  | a :: b :: rest => do
      let hi ← hexVal a
      let lo ← hexVal b
      let tail ← hexDecode rest
      pure (hi * 16 + lo) >>= fun v => pure (v :: tail)

/-- RESP values, from `enum Type` in src/resptype.rs.  String payloads are byte
sequences (see the module comment). -/
inductive RespType where
  | SimpleString (s : List Nat)
  | BulkString (s : List Nat)
  | RDBSyncString (s : List Nat)
  | NullBulkString
  | Integer (s : List Nat)
  | Array (elems : List RespType)
deriving Repr

mutual

/-- `Type::serialize` (src/resptype.rs 49-72).  Only the `RDBSyncString` arm can
fail: it hex-decodes its payload with `.unwrap()`, which panics on bad input
(`none` here).  All other arms are total. -/
def RespType.serialize : RespType → Option (List Nat)
  | .SimpleString s => some (43 :: (s ++ [CR, LF]))
  | .BulkString s => some (36 :: (natToDec s.length ++ [CR, LF] ++ s ++ [CR, LF]))
  | .RDBSyncString rdb =>
      (hexDecode rdb).map (fun h => 36 :: (natToDec h.length ++ [CR, LF] ++ h))
  | .NullBulkString => some [36, 45, 49, CR, LF]
  | .Integer s => some (58 :: (s ++ [CR, LF]))
  | .Array elems =>
      (serializeList elems).map
        (fun ws => 42 :: (natToDec elems.length ++ [CR, LF] ++ ws.join))

/-- Serialization of the elements of an array, in order (the `flat_map` in the
`Array` arm of `Type::serialize`); fails as soon as one element fails. -/
def serializeList : List RespType → Option (List (List Nat))
  | [] => some []
  | v :: rest => do
      let w ← v.serialize
      let ws ← serializeList rest
      pure (w :: ws)

end

/-- `parse_crlf` (src/frame.rs 211-217): scan to the first CR, return the bytes
before it and the cursor just past the (assumed) CRLF, clamped to the buffer
length. -/
def parse_crlf (buffer : List Nat) : List Nat × Nat :=
  let i := buffer.findIdx (fun b => b = CR)
  (buffer.take i, min (i + 2) buffer.length)

/-- `parse_integer` (src/frame.rs 175-179). -/
def parse_integer (buffer : List Nat) : Option (RespType × Nat) :=
  let p := parse_crlf buffer
  some (.Integer p.1, p.2)

/-- `parse_simple_string` (src/frame.rs 181-187). -/
def parse_simple_string (buffer : List Nat) : Option (RespType × Nat) :=
  let p := parse_crlf buffer
  some (.SimpleString p.1, p.2)

/-- `parse_bulk_string` (src/frame.rs 189-197): length header, then exactly
`len` payload bytes; the slice `&buffer[cursor..cursor+len]` panics when it
overruns the buffer, and `parse_usize` panics on a malformed length --- both
`none` here.  Note the returned cursor `cursor + len + 2`. -/
def parse_bulk_string (buffer : List Nat) : Option (RespType × Nat) :=
  let p := parse_crlf buffer
  match rustParseU64 p.1 with
  | none => none
  | some len =>
    if p.2 + len ≤ buffer.length then
      some (.BulkString ((buffer.drop p.2).take len), p.2 + len + 2)
    else none

mutual

/-- `parse_resp` (src/frame.rs 224-232): dispatch on the leading type byte;
`buffer[0]` on an empty buffer and an unknown leading byte both panic
(`none`).  The sub-parsers receive `&buffer[1..]`, so the returned cursor
does not count the leading type byte. -/
def parse_resp : List Nat → Option (RespType × Nat)
  | [] => none
  | b :: rest =>
    if b = 43 then parse_simple_string rest
    else if b = 36 then parse_bulk_string rest
    else if b = 58 then parse_integer rest
    else if b = 42 then parse_array rest
    else none
termination_by b => (3 * b.length + 2, 0)

/-- `parse_array` (src/frame.rs 199-209): element count header, then that many
recursive parses. -/
def parse_array (buffer : List Nat) : Option (RespType × Nat) :=
  match rustParseU64 (parse_crlf buffer).1 with
  | none => none
  | some n =>
    match parse_elems buffer (parse_crlf buffer).2 n with
    | none => none
    | some (elems, c) => some (.Array elems, c)
termination_by (3 * buffer.length + 4, 0)

/-- The element loop of `parse_array`: parse `n` elements starting at `cursor`,
advancing the cursor by `cursor_new + 1` after each (the `+ 1` re-counts the
type byte the recursive `parse_resp` did not). -/
def parse_elems (buffer : List Nat) (cursor : Nat) : Nat → Option (List RespType × Nat)
  | 0 => some ([], cursor)
  | n + 1 =>
    match parse_resp (buffer.drop cursor) with
    | none => none
    | some (elem, cnew) =>
      match parse_elems buffer (cursor + (cnew + 1)) n with
      | none => none
      | some (elems, c) => some (elem :: elems, c)
termination_by n => (3 * buffer.length + 3, n)

end

mutual

/-- Well-formedness of a RESP value for the round-trip statements: no
`RDBSyncString` (its on-wire form has no trailing CRLF and is not re-parsed),
no `NullBulkString` (its on-wire form `$-1\x0d\x0a` makes `parse_usize`
panic), SimpleString/Integer texts free of CR (the parser frames headers on
the first CR), and lengths within `usize` range (lengths are `usize` in Rust;
the model's `Nat` is unbounded). -/
def wfB : RespType → Bool
  | .SimpleString s => noCR s
  | .BulkString s => decide (s.length < 2 ^ 64)
  | .RDBSyncString _ => false
  | .NullBulkString => false
  | .Integer s => noCR s
  | .Array l => decide (l.length < 2 ^ 64) && wfListB l

/-- Well-formedness of each element of an array. -/
def wfListB : List RespType → Bool
  | [] => true
  | v :: rest => wfB v && wfListB rest

end


/-- ASCII lowercasing of one byte, modelling Rust's `str::to_lowercase` on the
ASCII range (the protocol constants and all claim inputs are ASCII; full
Unicode case mapping is out of scope of this model). -/
def lowerByte (b : Nat) : Nat :=
  if 65 ≤ b ∧ b ≤ 90 then b + 32 else b

/-- `to_lowercase` on a byte string. -/
def toLowerBytes (s : List Nat) : List Nat :=
  s.map lowerByte

/-- Recognized command verbs.  `command.rs` in src declares Ping..Info;
`frame.rs` additionally dispatches on `Command::ReplConf` and
`Command::PSync`, whose declaration is in an iteration of the module not
present under src; they are included as the spec lists them (section 3,
Command). -/
inductive Command where
  | Ping
  | Echo
  | Get
  | Set
  | Info
  | ReplConf
  | PSync
deriving Repr, DecidableEq

/-- `TryFrom<&Type> for Command` (src/command.rs 14-38): lowercase the bulk
string and compare against the verb names; a non-BulkString token or an
unknown verb is an error.  Modelled from the spec: the `replconf` and `psync`
arms, which the spec requires (section 4.2 with section 4.6) but whose source
iteration is not under src; they follow the same lowercase-compare pattern as
the five arms that are. -/
def commandOfType (t : RespType) : Option Command :=
  match t with
  | .BulkString s =>
    let s := toLowerBytes s
    if s = bytesOfString "ping" then some .Ping
    else if s = bytesOfString "echo" then some .Echo
    else if s = bytesOfString "set" then some .Set
    else if s = bytesOfString "get" then some .Get
    else if s = bytesOfString "info" then some .Info
    else if s = bytesOfString "replconf" then some .ReplConf
    else if s = bytesOfString "psync" then some .PSync
    else none
  | _ => none

/-- `TryFrom<Type> for String` (src/resptype.rs 31-46): the argument-extraction
conversion used by `Frame::new`; it lowercases BulkString and SimpleString
payloads and rejects every other variant. -/
def rustStringOfType : RespType → Option (List Nat)
  | .BulkString s => some (toLowerBytes s)
  | .SimpleString s => some (toLowerBytes s)
  | _ => none

/-- `struct Frame` (src/frame.rs 9-14). -/
structure Frame where
  command : Command
  args : Option (List (List Nat))
  bytes_vec : List Nat
deriving Repr, DecidableEq

/-- The per-command body of `Frame::new` (src/frame.rs 31-155), operating on
the parsed token array: extract arguments with the lowercasing string
conversion and enforce each command's accepted token counts
(`collect_tuple` fails unless the count matches exactly). -/
def frame_of_tokens (tokens : List RespType) (bytes_vec : List Nat) : Option Frame := do
  let t0 ← tokens.head?
  let cmd ← commandOfType t0
  match cmd with
  | .Ping => some { command := cmd, args := none, bytes_vec := bytes_vec }
  | .Echo =>
    match tokens with
    | [_, t1] => do
      let arg ← rustStringOfType t1
      some { command := cmd, args := some [arg], bytes_vec := bytes_vec }
    | _ => none
  | .Get =>
    match tokens with
    | [_, t1] => do
      let arg ← rustStringOfType t1
      some { command := cmd, args := some [arg], bytes_vec := bytes_vec }
    | _ => none
  | .Set =>
    match tokens with
    | [_, tk, tv] => do
      let key ← rustStringOfType tk
      let val ← rustStringOfType tv
      some { command := cmd, args := some [key, val], bytes_vec := bytes_vec }
    | [_, tk, tv, tp, td] => do
      let key ← rustStringOfType tk
      let val ← rustStringOfType tv
      let px ← rustStringOfType tp
      let dur ← rustStringOfType td
      some { command := cmd, args := some [key, val, px, dur], bytes_vec := bytes_vec }
    | _ => none
  | .Info =>
    match tokens with
    | [_] => some { command := cmd, args := none, bytes_vec := bytes_vec }
    | [_, t1] => do
      let arg ← rustStringOfType t1
      some { command := cmd, args := some [arg], bytes_vec := bytes_vec }
    | _ => none
  | .ReplConf =>
    match tokens with
    | [_, t1, t2] => do
      let a1 ← rustStringOfType t1
      let a2 ← rustStringOfType t2
      some { command := cmd, args := some [a1, a2], bytes_vec := bytes_vec }
    | _ => none
  | .PSync =>
    match tokens with
    | [_, t1, t2] => do
      let a1 ← rustStringOfType t1
      let a2 ← rustStringOfType t2
      some { command := cmd, args := some [a1, a2], bytes_vec := bytes_vec }
    | _ => none

/-- `Frame::new` (src/frame.rs 17-30 with the dispatch above): copy
`buffer[..len]` into `bytes_vec`, parse the WHOLE buffer (not just the first
`len` bytes), require a RESP array, and build the frame from its tokens. -/
def Frame.new (buffer : List Nat) (len : Nat) : Option Frame :=
  let bytes_vec := buffer.take len
  match parse_resp buffer with
  | none => none
  | some (resp, _) =>
    match resp with
    | .Array tokens => frame_of_tokens tokens bytes_vec
    | _ => none

/-- `struct SetValue` (src/response.rs 14-18): a stored value with an optional
absolute expiry instant (milliseconds). -/
structure SetValue where
  value : List Nat
  expiry : Option Nat
deriving Repr, DecidableEq

/-- `SetValue::new` (src/response.rs 21-26). -/
def SetValue.new (s : List Nat) : SetValue :=
  { value := s, expiry := none }

/-- `SetValue::new_with_expiry` (src/response.rs 28-33): expiry is
`Instant::now() + ex`, with the current instant passed explicitly. -/
def SetValue.new_with_expiry (s : List Nat) (ex : Nat) (now : Nat) : SetValue :=
  { value := s, expiry := some (now + ex) }

/-- The keyspace `Db = Arc<Mutex<HashMap<String, SetValue>>>`
(src/response.rs 11), modelled as a key-indexed partial map; the mutex is
modelled by the handlers taking and returning the whole map. -/
def Db : Type := List Nat → Option SetValue

/-- `HashMap::insert`. -/
def dbInsert (db : Db) (k : List Nat) (v : SetValue) : Db :=
  fun k2 => if k2 = k then some v else db k2

/-- `handle_get` (src/response.rs 36-65): error reply on more than one
argument, `NullBulkString` on a missing key or one whose expiry instant is
`<= now`, otherwise the stored value as a BulkString. -/
def handle_get (frame : Frame) (db : Db) (now : Nat) : Option (List Nat) :=
  match frame.args with
  | none => none
  | some args =>
    if args.length > 1 then
      (RespType.BulkString (bytesOfString "(error) Incorrect number of arguments for get")).serialize
    else
      match args.head? with
      | none => none
      | some key =>
        match db key with
        | none => RespType.NullBulkString.serialize
        | some val =>
          match val.expiry with
          | some expiry =>
            if expiry ≤ now then RespType.NullBulkString.serialize
            else (RespType.BulkString val.value).serialize
          | none => (RespType.BulkString val.value).serialize

/-- `handle_set` (src/response.rs 67-95): two args insert without expiry; four
args require the third to lowercase to `px` and the fourth to parse as `u64`
milliseconds, inserting with expiry `now + dur`; any other arg count only
logs.  All successful paths reply `+OK`. -/
def handle_set (frame : Frame) (db : Db) (now : Nat) : Option (List Nat × Db) :=
  match frame.args with
  | none => none
  | some args =>
    match args with
    | [key, val] =>
      ((RespType.SimpleString (bytesOfString "OK")).serialize).map
        (fun w => (w, dbInsert db key (SetValue.new val)))
    | [key, val, px, dur] =>
      if toLowerBytes px ≠ bytesOfString "px" then none
      else
        match rustParseU64 dur with
        | none => none
        | some d =>
          ((RespType.SimpleString (bytesOfString "OK")).serialize).map
            (fun w => (w, dbInsert db key (SetValue.new_with_expiry val d now)))
    | _ =>
      ((RespType.SimpleString (bytesOfString "OK")).serialize).map
        (fun w => (w, db))

/-- The metadata store (`Arc<Mutex<...>>` of string keys to string values,
src/info.rs 48 and the `InfoDb` alias used by src/response.rs), modelled as a
key-indexed partial map. -/
def InfoDb : Type := List Nat → Option (List Nat)

/-- Insert into the metadata store. -/
def infoInsert (db : InfoDb) (k v : List Nat) : InfoDb :=
  fun k2 => if k2 = k then some v else db k2

/-- `Database::get` (src/server.rs 54-60), as used by src/info.rs: a missing
key yields the sentinel entry `(nil)`. -/
def databaseGet (db : InfoDb) (k : List Nat) : List Nat :=
  (db k).getD (bytesOfString "(nil)")

/-- `handle_replconf` (src/response.rs 97-121): two args whose key lowercases
to `listening-port` or `capa` are inserted into the Info Store; other keys
are an error; other arg counts only log.  Success replies `+OK`. -/
def handle_replconf (frame : Frame) (info_db : InfoDb) : Option (List Nat × InfoDb) :=
  match frame.args with
  | none => none
  | some args =>
    match args with
    | [key, val] =>
      if toLowerBytes key ≠ bytesOfString "listening-port" ∧
          toLowerBytes key ≠ bytesOfString "capa" then none
      else
        ((RespType.SimpleString (bytesOfString "OK")).serialize).map
          (fun w => (w, infoInsert info_db key val))
    | _ =>
      ((RespType.SimpleString (bytesOfString "OK")).serialize).map
        (fun w => (w, info_db))

/-- `handle_psync` (src/response.rs 123-150): with two args it rejects only
when the lowercased replid differs from `?` AND the lowercased offset differs
from `-1` simultaneously; otherwise it reads `master_replid` and
`master_repl_offset` from the Info Store with `.unwrap()` (panic when
missing, `none` here) and replies `+FULLRESYNC <replid> <offset>`.  Any other
arg count only logs and replies `+OK`. -/
def handle_psync (frame : Frame) (info_db : InfoDb) : Option (List Nat) :=
  match frame.args with
  | none => none
  | some args =>
    match args with
    | [id, offset] =>
      if toLowerBytes id ≠ bytesOfString "?" ∧
          toLowerBytes offset ≠ bytesOfString "-1" then none
      else
        match info_db (bytesOfString "master_replid") with
        | none => none
        | some rv_id =>
          match info_db (bytesOfString "master_repl_offset") with
          | none => none
          | some rv_offset =>
            (RespType.SimpleString
              (bytesOfString "FULLRESYNC " ++ rv_id ++ bytesOfString " " ++ rv_offset)).serialize
    | _ => (RespType.SimpleString (bytesOfString "OK")).serialize

/-- The hex-encoded synthetic empty RDB snapshot (src/response.rs 195). -/
def hexConst : List Nat :=
  bytesOfString "524544495330303131fa0972656469732d76657205372e322e30fa0a72656469732d62697473c040fa056374696d65c26d08bc65fa08757365642d6d656dc2b0c41000fa08616f662d62617365c000fff06e3bfec0ff5aa2"

/-- `enum InfoQuery` (src/info.rs 82-86). -/
inductive InfoQuery where
  | Replication
  | All
  | Test
deriving Repr, DecidableEq

/-- `TryFrom<String> for InfoQuery` (src/info.rs 88-98): never fails; unknown
section names fall through to `All`. -/
def infoQueryOfBytes (v : List Nat) : InfoQuery :=
  if v = bytesOfString "replication" then .Replication
  else if v = bytesOfString "all" then .All
  else if v = bytesOfString "test" then .Test
  else .All

/-- `ALL_ARGS` (src/info.rs 28-36). -/
def ALL_ARGS : List (List Nat) :=
  [bytesOfString "role", bytesOfString "tcp_port", bytesOfString "master_host",
   bytesOfString "master_port", bytesOfString "connected_slaves",
   bytesOfString "master_replid", bytesOfString "master_repl_offset"]

/-- `REPLICATION_ARGS` (src/info.rs 38-46). -/
def REPLICATION_ARGS : List (List Nat) :=
  [bytesOfString "role", bytesOfString "tcp_port", bytesOfString "master_host",
   bytesOfString "master_port", bytesOfString "connected_slaves",
   bytesOfString "master_replid", bytesOfString "master_repl_offset"]

/-- One `name:value` line of the INFO body (the map step in src/info.rs
123-128). -/
def infoLine (db : InfoDb) (k : List Nat) : List Nat :=
  k ++ bytesOfString ":" ++ databaseGet db k ++ bytesOfString "\n"

/-- `info_query` (src/info.rs 112-175): build the newline-separated
`name:value` body over the section's key list and wrap it as a BulkString.
The `Test` arm calls `Database::get_all`, which iterates a `HashMap` in
unspecified order; no claim depends on it and it is modelled as unavailable
(`none`). -/
def info_query (q : InfoQuery) (db : InfoDb) : Option (List Nat) :=
  match q with
  | .Replication =>
    (RespType.BulkString ((REPLICATION_ARGS.map (infoLine db)).join)).serialize
  | .All =>
    (RespType.BulkString ((ALL_ARGS.map (infoLine db)).join)).serialize
  | .Test => none

/-- `handle_info` (src/info.rs 177-203): with exactly one argument, the
lowercased section must be `replication`, `all` or `test` (anything else
bails with an error); the original argument is then converted with
`InfoQuery::try_from` and dispatched.  With no argument, or an argument list
of another length, the `all` query runs. -/
def handle_info (frame : Frame) (info_db : InfoDb) : Option (List Nat) :=
  match frame.args with
  | some args =>
    if args.length = 1 then
      match args.getLast? with
      | none => none
      | some query =>
        if toLowerBytes query = bytesOfString "replication" then
          info_query (infoQueryOfBytes query) info_db
        else if toLowerBytes query = bytesOfString "all" then
          info_query (infoQueryOfBytes query) info_db
        else if toLowerBytes query = bytesOfString "test" then
          info_query (infoQueryOfBytes query) info_db
        else none
    else info_query .All info_db
  | none => info_query .All info_db

/-- `create_response` (src/response.rs 152-199): dispatch a frame to its
handler; the result is the ordered list of response byte blobs together with
the possibly-updated keyspace and Info Store.  Only PSYNC produces two blobs:
the FULLRESYNC line, then the serialized `RDBSyncString` of the fixed
snapshot constant. -/
def create_response (frame : Frame) (db : Db) (info_db : InfoDb) (now : Nat) :
    Option (List (List Nat) × Db × InfoDb) :=
  match frame.command with
  | .Ping =>
    ((RespType.SimpleString (bytesOfString "PONG")).serialize).map
      (fun w => ([w], db, info_db))
  | .Echo =>
    match frame.args with
    | none => none
    | some args =>
      if args.length > 1 then
        ((RespType.BulkString
          (bytesOfString "(error) Incorrect number of arguments for echo")).serialize).map
          (fun w => ([w], db, info_db))
      else
        match args.head? with
        | none => none
        | some arg =>
          ((RespType.BulkString arg).serialize).map (fun w => ([w], db, info_db))
  | .Get => (handle_get frame db now).map (fun w => ([w], db, info_db))
  | .Set => (handle_set frame db now).map (fun p => ([p.1], p.2, info_db))
  | .Info => (handle_info frame info_db).map (fun w => ([w], db, info_db))
  | .ReplConf => (handle_replconf frame info_db).map (fun p => ([p.1], db, p.2))
  | .PSync =>
    match handle_psync frame info_db with
    | none => none
    | some rv =>
      match (RespType.RDBSyncString hexConst).serialize with
      | none => none
      | some rdb => some ([rv, rdb], db, info_db)

/-- A registered replica socket for the fan-out model: a static flag saying
whether writes to it succeed, and the transcript of byte blobs written so
far.  `write_all` appending to the transcript models the FIFO byte stream of
the underlying TCP socket. -/
structure ReplicaSocket where
  writeOk : Bool
  written : List (List Nat)
deriving Repr, DecidableEq

/-- `write_all` on a replica socket: append the blob, or fail. -/
def writeAll (s : ReplicaSocket) (msg : List Nat) : Option ReplicaSocket :=
  if s.writeOk then some { s with written := s.written ++ [msg] } else none

/-- `replicate` (src/replication.rs 13-20): under the registry lock, write the
frame's original raw bytes to every registered socket in registry order.
Each write is followed by `.unwrap()`: a failed write PANICS the handling
task (`none`); the failed replica is not removed and later replicas receive
nothing. -/
def replicate (frame : Frame) (streams : List ReplicaSocket) :
    Option (List ReplicaSocket) :=
  match streams with
  | [] => some []
  | s :: rest =>
    match writeAll s frame.bytes_vec with
    | none => none
    | some s2 => (replicate frame rest).map (fun r => s2 :: r)

/-- What the per-connection loop of `stream_handler` does after writing the
responses of one frame (src/server.rs 158-172). -/
inductive LoopAction where
  | replicateAndContinue
  | registerReplicaAndExit
  | continueLoop
deriving Repr, DecidableEq

/-- The `match frame_c.command()` step of `stream_handler`: SET triggers
fan-out and the loop continues; PSYNC pushes the connection's socket into the
Replica Registry and returns from the handler, ending the loop for that
socket; everything else just continues. -/
def after_dispatch : Command → LoopAction
  | .Set => .replicateAndContinue
  | .PSync => .registerReplicaAndExit
  | _ => .continueLoop

/-- `server_info.replicas.push(stream)` (src/server.rs 166): the socket is
appended at the end of the Replica Registry. -/
def register_replica (replicas : List ReplicaSocket) (stream : ReplicaSocket) :
    List ReplicaSocket :=
  replicas ++ [stream]

theorem findIdx_cr_append (s rest : List Nat) (h : noCR s = true) :
    List.findIdx (fun b => b = CR) (s ++ CR :: rest) = s.length := by
  induction s with
  | nil => simp [List.findIdx_cons]
  | cons a t ih =>
    simp only [noCR, List.all_cons, Bool.and_eq_true, decide_eq_true_eq] at h
    have ha : (fun b => decide (b = CR)) a = false := by simp [h.1]
    simp only [List.cons_append, List.findIdx_cons, ha, cond_false, List.length_cons]
    rw [ih (by simpa [noCR] using h.2)]

theorem parse_crlf_append (s rest : List Nat) (h : noCR s = true) :
    parse_crlf (s ++ CR :: LF :: rest) = (s, s.length + 2) := by
  have h1 := findIdx_cr_append s (LF :: rest) h
  simp only [parse_crlf, h1, List.take_left, Prod.mk.injEq, true_and]
  simp only [List.length_append, List.length_cons]
  omega

theorem natToDec_mem (n : Nat) : ∀ b ∈ natToDec n, 48 ≤ b ∧ b ≤ 57 := by
  intro b hb
  unfold natToDec at hb
  by_cases h0 : n = 0
  · simp [h0] at hb
    omega
  · simp only [h0, if_false, List.mem_reverse, List.mem_map] at hb
    obtain ⟨d, hd, rfl⟩ := hb
    have := Nat.digits_lt_base (by norm_num) hd
    omega

theorem noCR_natToDec (n : Nat) : noCR (natToDec n) = true := by
  simp only [noCR, List.all_eq_true, decide_eq_true_eq]
  intro b hb
  have := natToDec_mem n b hb
  simp [CR]
  omega

theorem foldl_dec_digits (l : List Nat) (a : Nat) :
    List.foldl (fun acc d => acc * 10 + (d - 48)) a ((l.map (fun d => d + 48)).reverse)
      = a * 10 ^ l.length + Nat.ofDigits 10 l := by
  induction l generalizing a with
  | nil => simp [Nat.ofDigits_nil]
  | cons d t ih =>
    simp only [List.map_cons, List.reverse_cons, List.foldl_append, List.foldl_cons,
      List.foldl_nil, ih, Nat.ofDigits_cons, List.length_cons]
    ring_nf
    omega

theorem rustParseU64_natToDec (n : Nat) (h : n < 2 ^ 64) :
    rustParseU64 (natToDec n) = some n := by
  by_cases h0 : n = 0
  · subst h0
    simp [rustParseU64, natToDec]
  · have hmem := natToDec_mem n
    have hne : natToDec n ≠ [] := by
      unfold natToDec
      simp only [h0, if_false]
      simp [Nat.digits_ne_nil_iff_ne_zero, h0]
    unfold rustParseU64
    have hstrip : (match natToDec n with
        | 43 :: rest => rest
        | l => l) = natToDec n := by
      split
      · next rest heq =>
        exfalso
        have hb := hmem 43 (by rw [heq]; exact List.mem_cons_self _ _)
        omega
      · rfl
    rw [hstrip]
    have hall : (natToDec n).all (fun b => decide (48 ≤ b ∧ b ≤ 57)) = true := by
      simp only [List.all_eq_true, decide_eq_true_eq]
      exact hmem
    have hfold : List.foldl (fun acc d => acc * 10 + (d - 48)) 0 (natToDec n) = n := by
      unfold natToDec
      simp only [h0, if_false]
      rw [foldl_dec_digits]
      simp [Nat.ofDigits_digits]
    simp [hne, hfold]
    exact ⟨hmem, h⟩

theorem serialize_length_pos (V : RespType) (w : List Nat)
    (h : V.serialize = some w) : 0 < w.length := by
  cases V with
  | SimpleString s => simp only [RespType.serialize, Option.some.injEq] at h; subst h; simp
  | BulkString s => simp only [RespType.serialize, Option.some.injEq] at h; subst h; simp
  | RDBSyncString s =>
    simp only [RespType.serialize, Option.map_eq_some'] at h
    obtain ⟨hx, _, rfl⟩ := h
    simp
  | NullBulkString => simp only [RespType.serialize, Option.some.injEq] at h; subst h; simp
  | Integer s => simp only [RespType.serialize, Option.some.injEq] at h; subst h; simp
  | Array l =>
    simp only [RespType.serialize, Option.map_eq_some'] at h
    obtain ⟨ws, _, rfl⟩ := h
    simp

mutual

/-- Round-trip with a trailing tail: parsing the serialization of a
well-formed value, followed by any further bytes, returns the value and a
cursor of exactly `length - 1` --- the sub-parsers receive `&buffer[1..]`, so
the leading type byte is never counted. -/
theorem parse_ser (V : RespType) (hwf : wfB V = true) (w : List Nat)
    (hser : V.serialize = some w) (rest : List Nat) :
    parse_resp (w ++ rest) = some (V, w.length - 1) := by
  cases V with
  | SimpleString s =>
    simp only [RespType.serialize, Option.some.injEq] at hser
    subst hser
    simp only [wfB] at hwf
    have hc := parse_crlf_append s rest hwf
    simp only [List.cons_append, List.append_assoc, List.nil_append] at hc ⊢
    simp [parse_resp, parse_simple_string, hc]
  | Integer s =>
    simp only [RespType.serialize, Option.some.injEq] at hser
    subst hser
    simp only [wfB] at hwf
    have hc := parse_crlf_append s rest hwf
    simp only [List.cons_append, List.append_assoc, List.nil_append] at hc ⊢
    simp [parse_resp, parse_integer, hc]
  | BulkString s =>
    simp only [RespType.serialize, Option.some.injEq] at hser
    subst hser
    simp only [wfB, decide_eq_true_eq] at hwf
    have hd := noCR_natToDec s.length
    have hp := rustParseU64_natToDec s.length hwf
    have hc := parse_crlf_append (natToDec s.length) (s ++ CR :: LF :: rest) hd
    simp only [List.cons_append, List.append_assoc, List.nil_append] at hc ⊢
    simp [parse_resp, parse_bulk_string, hc, hp]
    omega
  | RDBSyncString s => simp [wfB] at hwf
  | NullBulkString => simp [wfB] at hwf
  | Array l =>
    simp only [wfB, Bool.and_eq_true, decide_eq_true_eq] at hwf
    obtain ⟨hlen64, hwfl⟩ := hwf
    simp only [RespType.serialize, Option.map_eq_some'] at hser
    obtain ⟨ws, hws, rfl⟩ := hser
    have hd := noCR_natToDec l.length
    have hp := rustParseU64_natToDec l.length hlen64
    have hc := parse_crlf_append (natToDec l.length) (ws.join ++ rest) hd
    simp only [List.cons_append, List.append_assoc, List.nil_append] at hc ⊢
    have hdrop : (natToDec l.length ++ (CR :: LF :: (ws.join ++ rest))).drop
        ((natToDec l.length).length + 2) = ws.join ++ rest := by
      rw [show (natToDec l.length ++ (CR :: LF :: (ws.join ++ rest)))
          = (natToDec l.length ++ [CR, LF]) ++ (ws.join ++ rest) by simp]
      exact List.drop_left' (by simp)
    have helems := parse_ser_list l hwfl ws hws
      (natToDec l.length ++ (CR :: LF :: (ws.join ++ rest)))
      ((natToDec l.length).length + 2) rest hdrop
    simp [parse_resp, parse_array, hc, hp, helems]
    omega
termination_by (sizeOf V, 0)

/-- The element loop: if the bytes at `cursor` are the serializations of the
elements followed by `rest`, the loop returns the elements and advances the
cursor by exactly the serialized length. -/
theorem parse_ser_list (l : List RespType) (hwf : wfListB l = true)
    (ws : List (List Nat)) (hser : serializeList l = some ws)
    (buffer : List Nat) (cursor : Nat) (rest : List Nat)
    (hbuf : buffer.drop cursor = ws.join ++ rest) :
    parse_elems buffer cursor l.length = some (l, cursor + ws.join.length) := by
  cases l with
  | nil =>
    simp only [serializeList, Option.some.injEq] at hser
    subst hser
    simp [parse_elems]
  | cons v t =>
    simp only [serializeList, Option.bind_eq_bind, Option.bind_eq_some,
      Option.pure_def, Option.some.injEq] at hser
    obtain ⟨w, hw, wt, hwt, heq⟩ := hser
    subst heq
    simp only [wfListB, Bool.and_eq_true] at hwf
    have hpos := serialize_length_pos v w hw
    have h1 : parse_resp (buffer.drop cursor) = some (v, w.length - 1) := by
      rw [hbuf, show (w :: wt).join ++ rest = w ++ (wt.join ++ rest) by simp]
      exact parse_ser v hwf.1 w hw (wt.join ++ rest)
    have hsucc : w.length - 1 + 1 = w.length := by omega
    have hdrop2 : buffer.drop (cursor + w.length) = wt.join ++ rest := by
      rw [← List.drop_drop, hbuf,
        show (w :: wt).join ++ rest = w ++ (wt.join ++ rest) by simp]
      exact List.drop_left' rfl
    have h2 := parse_ser_list t hwf.2 wt hwt buffer (cursor + w.length) rest hdrop2
    have hflat : ((w :: wt).join).length = w.length + (wt.join).length := by simp
    simp only [List.length_cons, parse_elems, h1, hsucc, h2]
    simp only [Option.some.injEq, Prod.mk.injEq, true_and]
    omega
termination_by (sizeOf l, 1)

end

set_option maxRecDepth 20000

/-- C6: the spec says the bulk-string length token `-1` (bytes `$-1\x0d\x0a`)
parses to NullBulkString.  The code instead panics: `parse_usize` calls
`"-1".parse::<usize>().expect(..)`, which fails, so `parse_resp` on exactly
those bytes crashes (`none`) --- even though the server's own serializer
emits exactly these bytes for NullBulkString (second conjunct), e.g. in every
GET miss reply. -/
theorem C6_null_bulk_parse_crash :
    parse_resp (bytesOfString "$-1\r\n") = none ∧
    RespType.NullBulkString.serialize = some (bytesOfString "$-1\r\n") := by
  constructor
  · simp [parse_resp, parse_bulk_string, parse_crlf, rustParseU64, bytesOfString,
      CR, LF, List.findIdx_cons]
  · simp [RespType.serialize, bytesOfString, CR, LF]

/-- C1 counterexample: at the concrete value SimpleString "OK" the parser
returns cursor 4, not the serialized length 5: the claim
`parse(serialize(V)) = (V, len(serialize(V)))` fails (the leading type byte
is never counted by the cursor). -/
theorem C1_counterexample :
    (RespType.SimpleString (bytesOfString "OK")).serialize
      = some (bytesOfString "+OK\r\n") ∧
    parse_resp (bytesOfString "+OK\r\n")
      = some (.SimpleString (bytesOfString "OK"), 4) ∧
    (bytesOfString "+OK\r\n").length = 5 ∧ (4 : Nat) ≠ 5 := by
  refine ⟨?_, ?_, by rfl, by decide⟩
  · simp [RespType.serialize, bytesOfString, CR, LF]
  · simp [parse_resp, parse_simple_string, parse_crlf, bytesOfString, CR, LF,
      List.findIdx_cons]

/-- C1 amended: for every value without RdbPayload and without
NullBulkString, whose SimpleString/Integer texts contain no CR and whose
lengths fit in `usize` (all captured by `wfB`), parsing the serialization
yields the value back with a cursor of exactly `len(serialize(V)) - 1`, one
less than the claim states (the leading type byte is not counted); the same
cursor is returned when the bytes of a second serialized value follow. -/
theorem C1_round_trip_amended (V V2 : RespType) (hwf : wfB V = true)
    (w w2 : List Nat) (hser : V.serialize = some w) (_hser2 : V2.serialize = some w2) :
    parse_resp w = some (V, w.length - 1) ∧
    parse_resp (w ++ w2) = some (V, w.length - 1) := by
  constructor
  · simpa using parse_ser V hwf w hser []
  · exact parse_ser V hwf w hser w2

/-- C1 witness: the amended round trip at SimpleString "OK" followed by
Integer "7". -/
theorem C1_round_trip_amended_witness :
    parse_resp (bytesOfString "+OK\r\n")
      = some (.SimpleString (bytesOfString "OK"), (bytesOfString "+OK\r\n").length - 1) ∧
    parse_resp (bytesOfString "+OK\r\n" ++ bytesOfString ":7\r\n")
      = some (.SimpleString (bytesOfString "OK"), (bytesOfString "+OK\r\n").length - 1) :=
  C1_round_trip_amended (.SimpleString (bytesOfString "OK")) (.Integer (bytesOfString "7"))
    (by simp [wfB, noCR, bytesOfString, CR])
    (bytesOfString "+OK\r\n") (bytesOfString ":7\r\n")
    (by simp [RespType.serialize, bytesOfString, CR, LF])
    (by simp [RespType.serialize, bytesOfString, CR, LF])

/-- C2: a SET with no PX replies `+OK` and stores the value with no expiry;
GET then returns that value as a BulkString at every later instant; a SET on
a different key leaves it untouched; a SET on the same key overwrites it; and
GET on an absent key returns NullBulkString. -/
theorem C2_get_after_set (db : Db) (k v v2 k2 : List Nat) (now0 : Nat)
    (b1 b2 : List Nat) (hk2 : k2 ≠ k) :
    handle_set { command := .Set, args := some [k, v], bytes_vec := b1 } db now0
      = some (43 :: (bytesOfString "OK" ++ [CR, LF]), dbInsert db k (SetValue.new v)) ∧
    (RespType.SimpleString (bytesOfString "OK")).serialize
      = some (43 :: (bytesOfString "OK" ++ [CR, LF])) ∧
    (∀ now, handle_get { command := .Get, args := some [k], bytes_vec := b2 }
        (dbInsert db k (SetValue.new v)) now = (RespType.BulkString v).serialize) ∧
    (∀ now, handle_get { command := .Get, args := some [k], bytes_vec := b2 }
        (dbInsert (dbInsert db k (SetValue.new v)) k2 (SetValue.new v2)) now
      = (RespType.BulkString v).serialize) ∧
    (∀ now, handle_get { command := .Get, args := some [k], bytes_vec := b2 }
        (dbInsert (dbInsert db k (SetValue.new v)) k (SetValue.new v2)) now
      = (RespType.BulkString v2).serialize) ∧
    (∀ dbx : Db, ∀ now, dbx k = none →
      handle_get { command := .Get, args := some [k], bytes_vec := b2 } dbx now
        = RespType.NullBulkString.serialize) := by
  refine ⟨?_, ?_, ?_, ?_, ?_, ?_⟩
  · simp [handle_set, RespType.serialize]
  · simp [RespType.serialize]
  · intro now
    simp [handle_get, dbInsert, SetValue.new]
  · intro now
    simp [handle_get, dbInsert, SetValue.new, Ne.symm hk2]
  · intro now
    simp [handle_get, dbInsert, SetValue.new]
  · intro dbx now h
    simp [handle_get, h]

/-- C2 witness: SET foo bar on the empty keyspace, then GET foo at instant 7. -/
theorem C2_get_after_set_witness :
    handle_get { command := .Get, args := some [bytesOfString "foo"], bytes_vec := [] }
      (dbInsert (fun _ => none) (bytesOfString "foo") (SetValue.new (bytesOfString "bar"))) 7
    = (RespType.BulkString (bytesOfString "bar")).serialize :=
  (C2_get_after_set (fun _ => none) (bytesOfString "foo") (bytesOfString "bar")
    (bytesOfString "qux") (bytesOfString "baz") 0 [] [] (by decide)).2.2.1 7

/-- C3: SET k v PX t at instant now0 (PX case-insensitive, t parsed as
unsigned decimal) stores expiry now0 + t; GET returns the value strictly
before that instant and NullBulkString from that instant on, exactly as the
claim states. -/
theorem C3_px_expiry (db : Db) (k v px dur : List Nat) (t now0 : Nat)
    (b1 b2 : List Nat)
    (hpx : toLowerBytes px = bytesOfString "px")
    (hdur : rustParseU64 dur = some t) :
    handle_set { command := .Set, args := some [k, v, px, dur], bytes_vec := b1 } db now0
      = some (43 :: (bytesOfString "OK" ++ [CR, LF]),
          dbInsert db k (SetValue.new_with_expiry v t now0)) ∧
    (∀ now, now < now0 + t →
      handle_get { command := .Get, args := some [k], bytes_vec := b2 }
        (dbInsert db k (SetValue.new_with_expiry v t now0)) now
        = (RespType.BulkString v).serialize) ∧
    (∀ now, now0 + t ≤ now →
      handle_get { command := .Get, args := some [k], bytes_vec := b2 }
        (dbInsert db k (SetValue.new_with_expiry v t now0)) now
        = RespType.NullBulkString.serialize) := by
  refine ⟨?_, ?_, ?_⟩
  · simp [handle_set, hpx, hdur, RespType.serialize]
  · intro now hnow
    simp [handle_get, dbInsert, SetValue.new_with_expiry]
    omega
  · intro now hnow
    simp [handle_get, dbInsert, SetValue.new_with_expiry, hnow]

/-- C3 witness: SET foo bar PX 100 at instant 50 (PX in upper case); GET at
instant 149 still sees the value, GET at instant 150 sees NullBulkString. -/
theorem C3_px_expiry_witness :
    handle_get { command := .Get, args := some [bytesOfString "foo"], bytes_vec := [] }
      (dbInsert (fun _ => none) (bytesOfString "foo")
        (SetValue.new_with_expiry (bytesOfString "bar") 100 50)) 149
      = (RespType.BulkString (bytesOfString "bar")).serialize ∧
    handle_get { command := .Get, args := some [bytesOfString "foo"], bytes_vec := [] }
      (dbInsert (fun _ => none) (bytesOfString "foo")
        (SetValue.new_with_expiry (bytesOfString "bar") 100 50)) 150
      = RespType.NullBulkString.serialize :=
  ⟨(C3_px_expiry (fun _ => none) (bytesOfString "foo") (bytesOfString "bar")
      (bytesOfString "PX") (bytesOfString "100") 100 50 [] []
      (by decide) (by rfl)).2.1 149 (by omega),
   (C3_px_expiry (fun _ => none) (bytesOfString "foo") (bytesOfString "bar")
      (bytesOfString "PX") (bytesOfString "100") 100 50 [] []
      (by decide) (by rfl)).2.2 150 (by omega)⟩

/-- Fan-out over an all-healthy registry: every socket receives the frame's
raw bytes appended to its transcript, in registry order. -/
theorem replicate_all_ok (f : Frame) (streams : List ReplicaSocket)
    (h : ∀ s ∈ streams, s.writeOk = true) :
    replicate f streams
      = some (streams.map (fun s => { s with written := s.written ++ [f.bytes_vec] })) := by
  induction streams with
  | nil => simp [replicate]
  | cons s rest ih =>
    have hs : s.writeOk = true := h s (List.mem_cons_self s rest)
    have hrest : ∀ x ∈ rest, x.writeOk = true := fun x hx => h x (List.mem_cons_of_mem s hx)
    simp [replicate, writeAll, hs, ih hrest]

/-- C5 counterexample: with a healthy socket followed by one whose write
fails, `replicate` panics (`none`): the failing replica is NOT removed from
the registry and the fan-out does not complete --- there is no resulting
registry at all, contradicting the claim that the failed replica is removed
and the client request unaffected. -/
theorem C5_counterexample :
    replicate (Frame.mk .Set (some [bytesOfString "foo", bytesOfString "bar"])
        (bytesOfString "*3\r\n$3\r\nSET\r\n$3\r\nfoo\r\n$3\r\nbar\r\n"))
      [⟨true, []⟩, ⟨false, []⟩] = none ∧
    (∀ r : List ReplicaSocket,
      replicate (Frame.mk .Set (some [bytesOfString "foo", bytesOfString "bar"])
          (bytesOfString "*3\r\n$3\r\nSET\r\n$3\r\nfoo\r\n$3\r\nbar\r\n"))
        [⟨true, []⟩, ⟨false, []⟩] ≠ some r) := by
  refine ⟨?_, ?_⟩
  · simp [replicate, writeAll]
  · intro r
    simp [replicate, writeAll]

/-- C5 amended: when every registered socket accepts writes, the raw bytes of
the SET request are written to every socket in registry order (each socket's
transcript gains the bytes, the registry sequence unchanged), and two
successive fan-outs W1 then W2 append `[W1, W2]` to every transcript in that
order.  When any write fails, the task panics via `.unwrap()`: the failing
replica is not removed and the originating connection's handler dies (see
the counterexample). -/
theorem C5_fanout_amended (f1 f2 : Frame) (streams : List ReplicaSocket)
    (h : ∀ s ∈ streams, s.writeOk = true) :
    replicate f1 streams
      = some (streams.map (fun s => { s with written := s.written ++ [f1.bytes_vec] })) ∧
    replicate f2 (streams.map (fun s => { s with written := s.written ++ [f1.bytes_vec] }))
      = some (streams.map (fun s =>
          { s with written := s.written ++ [f1.bytes_vec, f2.bytes_vec] })) := by
  refine ⟨replicate_all_ok f1 streams h, ?_⟩
  rw [replicate_all_ok f2 _ (by simpa using h)]
  simp

/-- C5 witness: one healthy registered replica receives two successive SET
fan-outs in order. -/
theorem C5_fanout_amended_witness :
    replicate (Frame.mk .Set (some [bytesOfString "a", bytesOfString "1"])
        (bytesOfString "*3\r\n$3\r\nSET\r\n$1\r\na\r\n$1\r\n1\r\n"))
      [⟨true, []⟩]
      = some [⟨true, [bytesOfString "*3\r\n$3\r\nSET\r\n$1\r\na\r\n$1\r\n1\r\n"]⟩] :=
  Eq.trans
    ((C5_fanout_amended
      (Frame.mk .Set (some [bytesOfString "a", bytesOfString "1"])
        (bytesOfString "*3\r\n$3\r\nSET\r\n$1\r\na\r\n$1\r\n1\r\n"))
      (Frame.mk .Set (some [bytesOfString "a", bytesOfString "2"])
        (bytesOfString "*3\r\n$3\r\nSET\r\n$1\r\na\r\n$1\r\n2\r\n"))
      [⟨true, []⟩] (by decide)).1)
    (by simp)

/-- C8 counterexample: INFO with the unrecognized section `xyz` bails with an
error (`none`) instead of returning the full key set, while INFO with no
argument does produce a reply. -/
theorem C8_counterexample :
    handle_info { command := .Info, args := some [bytesOfString "xyz"], bytes_vec := [] }
      (fun _ => none) = none ∧
    (handle_info { command := .Info, args := none, bytes_vec := [] }
      (fun _ => none)).isSome = true := by
  refine ⟨?_, ?_⟩
  · simp [handle_info, toLowerBytes, lowerByte, bytesOfString]
  · simp [handle_info, info_query, RespType.serialize]

/-- C8 amended: `REPLICATION_ARGS` and `ALL_ARGS` are identical key lists, so
INFO replication and INFO all return identical BulkStrings; INFO with no
argument runs the full (`all`) query; but INFO with a section argument that
is none of `replication`/`all`/`test` FAILS with an error rather than
returning the full key set. -/
theorem C8_info_sections_amended (db : InfoDb) (b1 b2 : List Nat) (s : List Nat)
    (hs1 : toLowerBytes s ≠ bytesOfString "replication")
    (hs2 : toLowerBytes s ≠ bytesOfString "all")
    (hs3 : toLowerBytes s ≠ bytesOfString "test") :
    REPLICATION_ARGS = ALL_ARGS ∧
    handle_info { command := .Info, args := some [bytesOfString "replication"], bytes_vec := b1 } db
      = handle_info { command := .Info, args := some [bytesOfString "all"], bytes_vec := b2 } db ∧
    info_query .Replication db = info_query .All db ∧
    handle_info { command := .Info, args := none, bytes_vec := b1 } db = info_query .All db ∧
    handle_info { command := .Info, args := some [s], bytes_vec := b1 } db = none := by
  have hq : info_query .Replication db = info_query .All db := by
    simp [info_query, REPLICATION_ARGS, ALL_ARGS]
  refine ⟨rfl, ?_, hq, ?_, ?_⟩
  · simp [handle_info, infoQueryOfBytes, toLowerBytes, lowerByte, bytesOfString, hq]
  · simp [handle_info]
  · simp [handle_info, hs1, hs2, hs3]

/-- C8 witness: the amended statement at the unknown section `xyz` over the
empty Info Store. -/
theorem C8_info_sections_amended_witness :
    handle_info { command := .Info, args := some [bytesOfString "xyz"], bytes_vec := [] }
      (fun _ => none) = none :=
  (C8_info_sections_amended (fun _ => none) [] [] (bytesOfString "xyz")
    (by decide) (by decide) (by decide)).2.2.2.2

/-- Every frame built by the per-command body of `Frame::new` carries exactly
the bytes it was given as `bytes_vec`. -/
theorem frame_of_tokens_bytes_vec (tokens : List RespType) (bv : List Nat) (f : Frame)
    (h : frame_of_tokens tokens bv = some f) : f.bytes_vec = bv := by
  unfold frame_of_tokens at h
  simp only [Option.bind_eq_bind, Option.pure_def, Option.bind_eq_some] at h
  obtain ⟨t0, ht0, cmd, hcmd, h⟩ := h
  cases cmd
  all_goals try split at h
  all_goals try split at h
  all_goals try contradiction
  all_goals simp only [Option.bind_eq_some, Option.some.injEq] at h
  all_goals repeat obtain ⟨_, _, h⟩ := h
  all_goals rfl

/-- Every PSYNC frame built by the per-command body of `Frame::new` has
exactly two arguments (the arity check of src/frame.rs 137-154). -/
theorem frame_psync_args (tokens : List RespType) (bv : List Nat) (f : Frame)
    (h : frame_of_tokens tokens bv = some f) (hc : f.command = .PSync) :
    ∃ a1 a2, f.args = some [a1, a2] := by
  unfold frame_of_tokens at h
  simp only [Option.bind_eq_bind, Option.pure_def, Option.bind_eq_some] at h
  obtain ⟨t0, ht0, cmd, hcmd, h⟩ := h
  cases cmd
  all_goals try split at h
  all_goals try split at h
  all_goals try contradiction
  all_goals simp only [Option.bind_eq_some, Option.some.injEq] at h
  all_goals repeat obtain ⟨_, _, h⟩ := h
  all_goals first
    | exact ⟨_, _, rfl⟩
    | simp at hc

/-- C7 counterexample: when one read delivers the concatenation of two
complete command arrays (two PINGs, 28 bytes), the Frame is built from the
first array but its `raw_bytes` holds BOTH arrays: parsing `raw_bytes` back
consumes only 14 of its 28 bytes (cursor 13 plus the uncounted type byte), so
`raw_bytes` is not a single complete RESP array as the claim states. -/
theorem C7_counterexample :
    Frame.new (bytesOfString "*1\r\n$4\r\nPING\r\n" ++ bytesOfString "*1\r\n$4\r\nPING\r\n") 28
      = some (Frame.mk .Ping none
          (bytesOfString "*1\r\n$4\r\nPING\r\n" ++ bytesOfString "*1\r\n$4\r\nPING\r\n")) ∧
    parse_resp (bytesOfString "*1\r\n$4\r\nPING\r\n" ++ bytesOfString "*1\r\n$4\r\nPING\r\n")
      = some (.Array [.BulkString (bytesOfString "PING")], 13) ∧
    13 + 1 ≠ (bytesOfString "*1\r\n$4\r\nPING\r\n" ++ bytesOfString "*1\r\n$4\r\nPING\r\n").length := by
  refine ⟨?_, ?_, by decide⟩
  · simp [Frame.new, frame_of_tokens, commandOfType, rustStringOfType, toLowerBytes,
      lowerByte, parse_resp, parse_array, parse_elems, parse_bulk_string, parse_crlf,
      rustParseU64, bytesOfString, CR, LF, List.findIdx_cons]
  · simp [parse_resp, parse_array, parse_elems, parse_bulk_string, parse_crlf,
      rustParseU64, bytesOfString, CR, LF, List.findIdx_cons]

/-- C7 amended: when the first `len` bytes of the read are ONE complete
serialized command array (possibly followed by stale buffer bytes that parse
ignores), the constructed Frame's `raw_bytes` equals exactly those bytes and
parses back to the equivalent array (with the parser's cursor `len - 1`,
covering the whole of `raw_bytes`).  With two concatenated arrays in one
read, `raw_bytes` holds both and is not a single complete array (see the
counterexample). -/
theorem C7_frame_raw_bytes_amended (tokens : List RespType) (w junk : List Nat) (f : Frame)
    (hwf : wfB (.Array tokens) = true)
    (hser : (RespType.Array tokens).serialize = some w)
    (hf : Frame.new (w ++ junk) w.length = some f) :
    f.bytes_vec = w ∧
    parse_resp f.bytes_vec = some (.Array tokens, w.length - 1) := by
  have hparse := parse_ser (.Array tokens) hwf w hser junk
  have hparse0 := parse_ser (.Array tokens) hwf w hser []
  unfold Frame.new at hf
  rw [hparse] at hf
  simp only [] at hf
  have hbv := frame_of_tokens_bytes_vec tokens _ f hf
  rw [List.take_left' rfl] at hbv
  refine ⟨hbv, ?_⟩
  rw [hbv]
  simpa using hparse0

/-- C7 witness: a single complete PING array read exactly. -/
theorem C7_frame_raw_bytes_amended_witness :
    (Frame.mk .Ping none (bytesOfString "*1\r\n$4\r\nPING\r\n")).bytes_vec
      = bytesOfString "*1\r\n$4\r\nPING\r\n" ∧
    parse_resp (Frame.mk .Ping none (bytesOfString "*1\r\n$4\r\nPING\r\n")).bytes_vec
      = some (.Array [.BulkString (bytesOfString "PING")],
          (bytesOfString "*1\r\n$4\r\nPING\r\n").length - 1) :=
  C7_frame_raw_bytes_amended [.BulkString (bytesOfString "PING")]
    (bytesOfString "*1\r\n$4\r\nPING\r\n") []
    (Frame.mk .Ping none (bytesOfString "*1\r\n$4\r\nPING\r\n"))
    (by simp [wfB, wfListB, noCR, bytesOfString, CR])
    (by simp [RespType.serialize, serializeList, natToDec, bytesOfString, CR, LF])
    (by simp [Frame.new, frame_of_tokens, commandOfType, rustStringOfType, toLowerBytes,
      lowerByte, parse_resp, parse_array, parse_elems, parse_bulk_string, parse_crlf,
      rustParseU64, bytesOfString, CR, LF, List.findIdx_cons])

/-- C4: an accepted PSYNC (replid `?` or offset `-1`) against an Info Store
holding `master_replid` and `master_repl_offset` yields exactly two response
blobs in order: the SimpleString `FULLRESYNC <replid> <offset>` with both
fields read from the store, then the synthetic RDB snapshot on the wire as
`$88` CRLF followed by exactly 88 raw bytes and nothing after them (88 being
half the 176-character hex constant); afterwards the dispatch step registers
the socket at the end of the Replica Registry and exits the connection loop.
Every PSYNC frame built by `Frame::new` carries exactly two arguments. -/
theorem C4_psync_two_blobs (db : Db) (info : InfoDb) (r o id offset bv : List Nat)
    (now : Nat)
    (hr : info (bytesOfString "master_replid") = some r)
    (ho : info (bytesOfString "master_repl_offset") = some o)
    (hacc : toLowerBytes id = bytesOfString "?" ∨ toLowerBytes offset = bytesOfString "-1") :
    (∃ payload,
      hexDecode hexConst = some payload ∧
      hexConst.length = 176 ∧ payload.length = 88 ∧
      create_response (Frame.mk .PSync (some [id, offset]) bv) db info now
        = some ([43 :: (bytesOfString "FULLRESYNC " ++ r ++ bytesOfString " " ++ o ++ [CR, LF]),
                 36 :: (natToDec 88 ++ [CR, LF] ++ payload)], db, info)) ∧
    after_dispatch .PSync = .registerReplicaAndExit ∧
    (∀ reg sock, register_replica reg sock = reg ++ [sock]) ∧
    (∀ tokens bvx f, frame_of_tokens tokens bvx = some f → f.command = .PSync →
      ∃ a1 a2, f.args = some [a1, a2]) := by
  have hsome : (hexDecode hexConst).isSome = true := by rfl
  obtain ⟨payload, hp⟩ := Option.isSome_iff_exists.mp hsome
  have hlen : payload.length = 88 := by
    have h88 : (hexDecode hexConst).map List.length = some 88 := by rfl
    rw [hp] at h88
    simpa using h88
  refine ⟨⟨payload, hp, by rfl, hlen, ?_⟩, rfl, fun reg sock => rfl,
    fun tokens bvx f hf hcf => frame_psync_args tokens bvx f hf hcf⟩
  rcases hacc with ha | ha
  · simp [create_response, handle_psync, ha, hr, ho, RespType.serialize, hp, hlen]
  · simp [create_response, handle_psync, ha, hr, ho, RespType.serialize, hp, hlen]

/-- C4 witness: PSYNC ? -1 against a store with replid `replid1` and offset
`0`. -/
theorem C4_psync_two_blobs_witness :
    (∃ payload,
      hexDecode hexConst = some payload ∧
      hexConst.length = 176 ∧ payload.length = 88 ∧
      create_response (Frame.mk .PSync (some [bytesOfString "?", bytesOfString "-1"]) [])
          (fun _ => none)
          (fun k => if k = bytesOfString "master_replid" then some (bytesOfString "replid1")
            else if k = bytesOfString "master_repl_offset" then some (bytesOfString "0")
            else none) 0
        = some ([43 :: (bytesOfString "FULLRESYNC " ++ bytesOfString "replid1"
                  ++ bytesOfString " " ++ bytesOfString "0" ++ [CR, LF]),
                 36 :: (natToDec 88 ++ [CR, LF] ++ payload)], fun _ => none,
                 fun k => if k = bytesOfString "master_replid" then some (bytesOfString "replid1")
                   else if k = bytesOfString "master_repl_offset" then some (bytesOfString "0")
                   else none)) ∧
    after_dispatch .PSync = .registerReplicaAndExit ∧
    (∀ reg sock, register_replica reg sock = reg ++ [sock]) ∧
    (∀ tokens bvx f, frame_of_tokens tokens bvx = some f → f.command = .PSync →
      ∃ a1 a2, f.args = some [a1, a2]) :=
  C4_psync_two_blobs (fun _ => none)
    (fun k => if k = bytesOfString "master_replid" then some (bytesOfString "replid1")
      else if k = bytesOfString "master_repl_offset" then some (bytesOfString "0")
      else none)
    (bytesOfString "replid1") (bytesOfString "0")
    (bytesOfString "?") (bytesOfString "-1") [] 0
    (by simp) (by decide) (Or.inl (by decide))

/-- C9: every argument a frame extracts is lowercased: the string conversion
applied to each token lowercases BulkString and SimpleString payloads, so
ECHO/GET/SET frames store the lowercase form of the bytes the client sent,
ECHO replies with the lowercased argument, and SET inserts the lowercased
key and value into the keyspace. -/
theorem C9_frame_lowercases_args :
    (∀ s, rustStringOfType (.BulkString s) = some (toLowerBytes s)) ∧
    (∀ s, rustStringOfType (.SimpleString s) = some (toLowerBytes s)) ∧
    (∀ t0 a bv, commandOfType t0 = some .Echo →
      frame_of_tokens [t0, .BulkString a] bv
        = some (Frame.mk .Echo (some [toLowerBytes a]) bv)) ∧
    (∀ t0 k bv, commandOfType t0 = some .Get →
      frame_of_tokens [t0, .BulkString k] bv
        = some (Frame.mk .Get (some [toLowerBytes k]) bv)) ∧
    (∀ t0 k v bv, commandOfType t0 = some .Set →
      frame_of_tokens [t0, .BulkString k, .BulkString v] bv
        = some (Frame.mk .Set (some [toLowerBytes k, toLowerBytes v]) bv)) ∧
    (∀ a bv db info now, create_response (Frame.mk .Echo (some [a]) bv) db info now
      = ((RespType.BulkString a).serialize).map (fun w => ([w], db, info))) ∧
    (∀ k v bv db now0, handle_set (Frame.mk .Set (some [k, v]) bv) db now0
      = ((RespType.SimpleString (bytesOfString "OK")).serialize).map
          (fun w => (w, dbInsert db k (SetValue.new v)))) := by
  refine ⟨fun s => rfl, fun s => rfl, ?_, ?_, ?_, ?_, ?_⟩
  · intro t0 a bv h
    simp [frame_of_tokens, h, rustStringOfType]
  · intro t0 k bv h
    simp [frame_of_tokens, h, rustStringOfType]
  · intro t0 k v bv h
    simp [frame_of_tokens, h, rustStringOfType]
  · intro a bv db info now
    simp [create_response]
  · intro k v bv db now0
    simp [handle_set]

/-- C9 witness: the mixed-case ECHO of `HeLLo` is stored and replied
lowercased. -/
theorem C9_frame_lowercases_args_witness :
    frame_of_tokens [.BulkString (bytesOfString "ECHO"), .BulkString (bytesOfString "HeLLo")] []
      = some (Frame.mk .Echo (some [toLowerBytes (bytesOfString "HeLLo")]) []) :=
  (C9_frame_lowercases_args).2.2.1 (.BulkString (bytesOfString "ECHO"))
    (bytesOfString "HeLLo") [] (by decide)

/-- C10: with the Info Store fields present, `handle_psync` emits FULLRESYNC
whenever the lowercased replid equals `?` OR the lowercased offset equals
`-1` --- the bail fires only when both differ simultaneously, in which case
the handler errors. -/
theorem C10_psync_validation (info : InfoDb) (r o id offset bv : List Nat)
    (hr : info (bytesOfString "master_replid") = some r)
    (ho : info (bytesOfString "master_repl_offset") = some o) :
    (toLowerBytes id = bytesOfString "?" ∨ toLowerBytes offset = bytesOfString "-1" →
      handle_psync (Frame.mk .PSync (some [id, offset]) bv) info
        = (RespType.SimpleString
            (bytesOfString "FULLRESYNC " ++ r ++ bytesOfString " " ++ o)).serialize) ∧
    (toLowerBytes id ≠ bytesOfString "?" → toLowerBytes offset ≠ bytesOfString "-1" →
      handle_psync (Frame.mk .PSync (some [id, offset]) bv) info = none) := by
  constructor
  · intro hacc
    rcases hacc with ha | ha
    · simp [handle_psync, ha, hr, ho]
    · simp [handle_psync, ha, hr, ho]
  · intro h1 h2
    simp [handle_psync, h1, h2]

/-- C10 witness: PSYNC ? 12345 and PSYNC abc -1 are both accepted; PSYNC abc
12345 is rejected. -/
theorem C10_psync_validation_witness :
    handle_psync (Frame.mk .PSync (some [bytesOfString "?", bytesOfString "12345"])
        []) (fun k => if k = bytesOfString "master_replid" then some (bytesOfString "rid")
          else if k = bytesOfString "master_repl_offset" then some (bytesOfString "0") else none)
      = (RespType.SimpleString (bytesOfString "FULLRESYNC " ++ bytesOfString "rid"
          ++ bytesOfString " " ++ bytesOfString "0")).serialize ∧
    handle_psync (Frame.mk .PSync (some [bytesOfString "abc", bytesOfString "-1"])
        []) (fun k => if k = bytesOfString "master_replid" then some (bytesOfString "rid")
          else if k = bytesOfString "master_repl_offset" then some (bytesOfString "0") else none)
      = (RespType.SimpleString (bytesOfString "FULLRESYNC " ++ bytesOfString "rid"
          ++ bytesOfString " " ++ bytesOfString "0")).serialize ∧
    handle_psync (Frame.mk .PSync (some [bytesOfString "abc", bytesOfString "12345"])
        []) (fun k => if k = bytesOfString "master_replid" then some (bytesOfString "rid")
          else if k = bytesOfString "master_repl_offset" then some (bytesOfString "0") else none)
      = none :=
  ⟨(C10_psync_validation _ (bytesOfString "rid") (bytesOfString "0")
      (bytesOfString "?") (bytesOfString "12345") [] (by simp) (by decide)).1
    (Or.inl (by decide)),
   (C10_psync_validation _ (bytesOfString "rid") (bytesOfString "0")
      (bytesOfString "abc") (bytesOfString "-1") [] (by simp) (by decide)).1
    (Or.inr (by decide)),
   (C10_psync_validation _ (bytesOfString "rid") (bytesOfString "0")
      (bytesOfString "abc") (bytesOfString "12345") [] (by simp) (by decide)).2
    (by decide) (by decide)⟩
